import Mathlib

/-! rtbhost: the request handler, the statistics updater and the wiring of `NewRtbApp`

A shallow embedding of `src/rtbapp.go`.  Go's machine integers are `Int`/`Nat`
with explicit wrap-around, Go maps are partial functions, Go channels are
records holding their buffer and their wait queues, and `go f()` is an entry in
a list of spawned tasks.  The collaborators that live outside the repository
(the JSON codec, the bidder, the clock) are fields of an environment record.
-/

namespace RtbHost

/-! ## Machine integers -/

/-- The value of a Go `int64` holding the mathematical integer `v` (two's
complement wrap-around modulo `2^64`). -/
def wrapInt64 (v : Int) : Int := (v + 2 ^ 63) % 2 ^ 64 - 2 ^ 63

/-- The largest `uint64`. -/
def maxUint64 : Nat := 2 ^ 64 - 1

/-! ## `strconv.ParseInt(s, 10, 64)` (Go standard library) -/

/-- The two `Err` values a `*strconv.NumError` carries. -/
inductive NumError where
  | ErrSyntax
  | ErrRange
  deriving DecidableEq, Repr

/-- The digit loop of `strconv.ParseUint(s, 10, 64)`: `n` is the value read so
far.  A character that is no decimal digit ends the loop with `(0, ErrSyntax)`;
an overflow ends it at once with `(maxUint64, ErrRange)`. -/
def parseUintLoop : List Char → Nat → Nat × Option NumError
  | [], n => (n, none)
  | c :: cs, n =>
    if 48 ≤ c.toNat ∧ c.toNat ≤ 57 then
      let d := c.toNat - 48
      if n ≥ maxUint64 / 10 + 1 then (maxUint64, some NumError.ErrRange)
      else
        let n10 := n * 10
        let n1 := (n10 + d) % 2 ^ 64
        if n1 < n10 ∨ n1 > maxUint64 then (maxUint64, some NumError.ErrRange)
        else parseUintLoop cs n1
    else (0, some NumError.ErrSyntax)

/-- The function `strconv.ParseUint(s, 10, 64)`. -/
def ParseUint (s : List Char) : Nat × Option NumError :=
  match s with
  | [] => (0, some NumError.ErrSyntax)
  | _ => parseUintLoop s 0

/-- The function `strconv.ParseInt(s, 10, 64)`: the returned value and the
error.  On a malformed string the value is `0`, on a string out of range it is
the `int64` bound of the sign. -/
def ParseInt (s : String) : Int × Option NumError :=
  match s.data with
  | [] => (0, some NumError.ErrSyntax)
  | c :: rest =>
    let neg := decide (c = '-')
    let digits := if c = '+' ∨ c = '-' then rest else c :: rest
    let r := ParseUint digits
    if r.2 = some NumError.ErrSyntax then (0, r.2)
    else if neg = false ∧ r.1 ≥ 2 ^ 63 then (2 ^ 63 - 1, some NumError.ErrRange)
    else if neg = true ∧ r.1 > 2 ^ 63 then (-(2 ^ 63), some NumError.ErrRange)
    else
      let n := wrapInt64 (r.1 : Int)
      (if neg then wrapInt64 (-n) else n, none)

/-! ## The bid response, as far as this program reads it -/

/-- One bid line-item of `rtb.Bid`: the program reads its `Cid` only. -/
structure Bid where
  Cid : String
  deriving DecidableEq, Repr

/-- A seat-bid of `rtb.SeatBid`: `Bid` is a slice, `none` being the nil slice. -/
structure SeatBid where
  Bid : Option (List Bid)
  deriving DecidableEq, Repr

/-- A response of `rtb.BidResponse`: `Seatbid` is a slice, `none` being the nil slice. -/
structure BidResponse where
  Seatbid : Option (List SeatBid)
  deriving DecidableEq, Repr

/-! ## The statistics store `bidTotals : map[int64]int64` -/

/-- A (non-nil) Go `map[int64]int64`: the keys present and their values. -/
abbrev BidTotals := Int → Option Int

/-- The value `make(map[int64]int64)`. -/
def BidTotals.empty : BidTotals := fun _ => none

/-- A map read `m[k]`: the zero value when the key is absent. -/
def BidTotals.get (m : BidTotals) (k : Int) : Int := (m k).getD 0

/-- A map write `m[k] = v`. -/
def BidTotals.set (m : BidTotals) (k v : Int) : BidTotals :=
  fun j => if j = k then some v else m j

/-- The body of the innermost loop of `BidTotalUpdater` (lines 132-134): the
error of `ParseInt` is discarded, the returned value is the key. -/
def accountBid (m : BidTotals) (bid : Bid) : BidTotals :=
  let campaignId := (ParseInt bid.Cid).1
  let total := wrapInt64 (m.get campaignId + 1)
  m.set campaignId total

/-- Lines 130-136: the loop over the bids of one seat-bid, guarded by the nil test. -/
def accountSeatBid (m : BidTotals) (sb : SeatBid) : BidTotals :=
  match sb.Bid with
  | some bids => bids.foldl accountBid m
  | none => m

/-- Lines 128-138: the loop over the seat-bids of one response, guarded by the nil test. -/
def accountResponse (m : BidTotals) (rsp : BidResponse) : BidTotals :=
  match rsp.Seatbid with
  | some sbs => sbs.foldl accountSeatBid m
  | none => m

/-- The function `BidTotalUpdater` run on the responses it receives from
`accountBids`, in arrival order: one iteration of its endless loop per response. -/
def BidTotalUpdater (m : BidTotals) (rsps : List BidResponse) : BidTotals :=
  rsps.foldl accountResponse m

/-! ## Go channels -/

/-- The state of a Go channel of element type `α`: its capacity, its buffer,
the number of goroutines parked in a receive, the values of the senders parked
on it, and the history of every value a send statement was executed with,
oldest first. -/
structure Chan (α : Type) where
  cap : Nat
  buf : List α
  recvq : Nat
  sendq : List α
  sent : List α

/-- The value `make(chan T, cap)`; `make(chan T)` is `Chan.make 0`. -/
def Chan.make {α : Type} (cap : Nat) : Chan α :=
  { cap := cap, buf := [], recvq := 0, sendq := [], sent := [] }

/-- The statement `c <- v` on a non-nil channel.  With a receiver parked the
value is handed over to it; else with room in the buffer it is buffered; else
the sender parks, holding the value.  The flag says whether the statement
completed. -/
def Chan.send {α : Type} (c : Chan α) (v : α) : Chan α × Bool :=
  if 0 < c.recvq then ({ c with recvq := c.recvq - 1, sent := c.sent ++ [v] }, true)
  else if c.buf.length < c.cap then ({ c with buf := c.buf ++ [v], sent := c.sent ++ [v] }, true)
  else ({ c with sendq := c.sendq ++ [v], sent := c.sent ++ [v] }, false)

/-- The statement `ch <- v` on a channel variable, `none` being the nil channel,
on which a send blocks forever. -/
def chanSend {α : Type} : Option (Chan α) → α → Option (Chan α) × Bool
  | none, _ => (none, false)
  | some c, v => (some (c.send v).1, (c.send v).2)

/-- Every value a send statement on the channel variable was executed with and
that the channel holds or has passed on (none for the nil channel). -/
def chanSent {α : Type} : Option (Chan α) → List α
  | none => []
  | some c => c.sent

/-! ## `http.ResponseWriter` (Go standard library) -/

/-- The state of a response: the live header map of `Header()`, the codes
passed to `WriteHeader` so far, the status and the header that were committed
by the first of them, and the body written. -/
structure ResponseWriter where
  header : List (String × String)
  calls : List Nat
  status : Option Nat
  sentHeader : List (String × String)
  body : String
  deriving DecidableEq, Repr

/-- The writer a handler is given. -/
def ResponseWriter.fresh : ResponseWriter :=
  { header := [], calls := [], status := none, sentHeader := [], body := "" }

/-- The call `w.WriteHeader(code)`: the first call commits the status together
with the header map as it is then; a later call is superfluous and ignored. -/
def ResponseWriter.WriteHeader (w : ResponseWriter) (code : Nat) : ResponseWriter :=
  match w.status with
  | none => { w with calls := w.calls ++ [code], status := some code, sentHeader := w.header }
  | some _ => { w with calls := w.calls ++ [code] }

/-- The call `w.Header().Set(k, v)`: it changes the live map only. -/
def ResponseWriter.HeaderSet (w : ResponseWriter) (k v : String) : ResponseWriter :=
  { w with header := (k, v) :: w.header.filter (fun kv => kv.1 ≠ k) }

/-- The call `w.Write(b)`: it commits status 200 first when none was committed. -/
def ResponseWriter.Write (w : ResponseWriter) (b : String) : ResponseWriter :=
  match w.status with
  | none => { w with status := some 200, sentHeader := w.header, body := w.body ++ b }
  | some _ => { w with body := w.body ++ b }

/-- The constants `http.StatusOK` and `http.StatusNoContent`. -/
def StatusOK : Nat := 200

/-- The constant `http.StatusNoContent`. -/
def StatusNoContent : Nat := 204

/-! ## The request and the collaborators outside the repository -/

/-- The body `r.Body` of a request: a reader that delivers its bytes, or one
whose read fails. -/
inductive RequestBody where
  | readable (bytes : String)
  | failing (err : String)
  deriving DecidableEq, Repr

/-- The part of `*http.Request` the handler reads. -/
structure HttpRequest where
  Body : RequestBody
  deriving DecidableEq, Repr

/-- The call `ioutil.ReadAll(r.Body)`: the bytes and the error. -/
def ReadAll : RequestBody → String × Option String
  | RequestBody.readable bytes => (bytes, none)
  | RequestBody.failing err => ("", some err)

/-- The collaborators the handler calls: `json.Unmarshal` into a zero-valued
`rtb.BidRequest` (the struct it leaves behind and its error), the bidder built
by `inmemory.NewBidRequestBidder` from the request and the time (its response,
its budget snapshot, its error), `json.Marshal`, and the successive readings of
`time.Now().UTC()` in nanoseconds. -/
structure Env (Req Budgets : Type) where
  Unmarshal : String → Req × Option String
  Bid : Req → Int → Option BidResponse × Budgets × Option String
  Marshal : BidResponse → Except String String
  now : Nat → Int
  ReadCampaign : Int → Int × Int
  RemainingDailyBudgetInMicroCents : Int → Int

/-- A log item of `rtb.BidLogItem`. -/
structure BidLogItem (Req Budgets : Type) where
  Domain : String
  BidRequest : Req
  BidResponse : Option BidResponse
  RemainingDailyBudgetsInMicroCents : Budgets
  StartTimestampInNanoseconds : Int
  EndTimestampInNanoseconds : Int

/-- The two loggers `NewRtbApp` can build. -/
inductive BidLogProducer where
  | file (f : String) (fullBidResponse : Bool)
  | amqp (address domain : String)
  deriving DecidableEq, Repr

/-- The handle built by `rtbr.NewRedisDataAccess`. -/
structure DataAccess where
  network : String
  address : String
  domain : String
  poolSize : Int
  deriving DecidableEq, Repr

/-- The handle built by `rtbr.NewRedisPacer`. -/
structure Pacer where
  da : DataAccess
  segment : Int
  deriving DecidableEq, Repr

/-- The handle built by `rtbr.NewRedisCampaignProvider`, with the ids of the
campaigns created through it. -/
structure CampaignProvider where
  da : DataAccess
  created : List Int
  deriving DecidableEq, Repr

/-! ## The application -/

/-- The struct `RtbApp`.  A nil pointer, interface, channel or map is `none`. -/
structure RtbApp (Req Budgets : Type) where
  logger : Option BidLogProducer
  bidLoggerChannel : Option (Chan (BidLogItem Req Budgets))
  domain : String
  redisNetwork : String
  redisAddress : String
  campaignProvider : Option CampaignProvider
  banker : Option DataAccess
  pacer : Option Pacer
  updateTicker : Option Int
  accountBids : Option (Chan BidResponse)
  bidTotals : Option BidTotals

/-- The value `new(RtbApp)`: every field is its zero value. -/
def RtbApp.zero (Req Budgets : Type) : RtbApp Req Budgets :=
  { logger := none, bidLoggerChannel := none, domain := "", redisNetwork := "",
    redisAddress := "", campaignProvider := none, banker := none, pacer := none,
    updateTicker := none, accountBids := none, bidTotals := none }

/-- How a call of the handler ends: it returns, its goroutine stays parked on a
send, or it panics. -/
inductive Outcome where
  | returned
  | blockedOnAccountBids
  | blockedOnBidLoggerChannel
  | panicked (err : String)
  deriving DecidableEq, Repr

/-- What a call of the handler leaves behind. -/
structure HandlerResult (Req Budgets : Type) where
  app : RtbApp Req Budgets
  w : ResponseWriter
  outcome : Outcome

/-- The function `bidRequestForHttpRequest` (lines 63-75): `Except.error` is
the panic on a failed read; the error of `json.Unmarshal` is assigned and never
read, and the request value the decoder left behind is returned. -/
def bidRequestForHttpRequest {Req Budgets : Type} (env : Env Req Budgets)
    (r : HttpRequest) : Except String Req :=
  match (ReadAll r.Body).2 with
  | some err => Except.error err
  | none => Except.ok (env.Unmarshal (ReadAll r.Body).1).1

/-- Lines 102-104: the log item is sent when a logger is set. -/
def logStep {Req Budgets : Type} (env : Env Req Budgets) (app : RtbApp Req Budgets)
    (w : ResponseWriter) (bidRequest : Req) (b : Option BidResponse)
    (remaining : Budgets) (startTime : Int) : HandlerResult Req Budgets :=
  match app.logger with
  | some _ =>
    let item : BidLogItem Req Budgets :=
      { Domain := app.domain, BidRequest := bidRequest, BidResponse := b,
        RemainingDailyBudgetsInMicroCents := remaining,
        StartTimestampInNanoseconds := startTime,
        EndTimestampInNanoseconds := env.now 2 }
    let s := chanSend app.bidLoggerChannel item
    { app := { app with bidLoggerChannel := s.1 }, w := w,
      outcome := if s.2 then Outcome.returned else Outcome.blockedOnBidLoggerChannel }
  | none => { app := app, w := w, outcome := Outcome.returned }

/-- Lines 83-104 of `BidRequestHandler`, for the request `bidRequest`. -/
def handleBidRequest {Req Budgets : Type} (env : Env Req Budgets) (app : RtbApp Req Budgets)
    (w : ResponseWriter) (bidRequest : Req) : HandlerResult Req Budgets :=
  let startTime := env.now 0
  let r := env.Bid bidRequest (env.now 1)
  match r.2.2, r.1 with
  | none, some b =>
    match env.Marshal b with
    | Except.ok js =>
      let w1 := ((w.WriteHeader StatusOK).HeaderSet "Content-Type" "application/json").Write js
      let s := chanSend app.accountBids b
      let app1 := { app with accountBids := s.1 }
      if s.2 then logStep env app1 w1 bidRequest r.1 r.2.1 startTime
      else { app := app1, w := w1, outcome := Outcome.blockedOnAccountBids }
    | Except.error _ =>
      logStep env app (w.WriteHeader StatusNoContent) bidRequest r.1 r.2.1 startTime
  | _, _ => logStep env app (w.WriteHeader StatusNoContent) bidRequest r.1 r.2.1 startTime

/-- The function `BidRequestHandler` (lines 77-106): a panic of
`bidRequestForHttpRequest` ends the call before anything is written or sent. -/
def BidRequestHandler {Req Budgets : Type} (env : Env Req Budgets) (app : RtbApp Req Budgets)
    (w : ResponseWriter) (r : HttpRequest) : HandlerResult Req Budgets :=
  match bidRequestForHttpRequest env r with
  | Except.error err => { app := app, w := w, outcome := Outcome.panicked err }
  | Except.ok bidRequest => handleBidRequest env app w bidRequest

/-! ## The periodic report -/

/-- The read `app.bidTotals[k]`; a read of the nil map gives the zero value. -/
def RtbApp.totalFor {Req Budgets : Type} (app : RtbApp Req Budgets) (k : Int) : Int :=
  match app.bidTotals with
  | some m => m.get k
  | none => 0

/-- One printed line of `PrintCampaigns`: campaign id, CPM and remaining daily
budget in micro-cents, total bids. -/
structure ReportLine where
  id : Int
  cpm : Int
  remaining : Int
  totalBids : Int
  deriving DecidableEq, Repr

/-- The function `PrintCampaigns` (lines 108-115): the application after the
call and the lines printed.  It reads `bidTotals` and assigns to no field. -/
def PrintCampaigns {Req Budgets : Type} (env : Env Req Budgets) (app : RtbApp Req Budgets)
    (campaigns : List Int) : RtbApp Req Budgets × List ReportLine :=
  (app, campaigns.map fun val =>
    let c := env.ReadCampaign val
    { id := c.1, cpm := c.2, remaining := env.RemainingDailyBudgetInMicroCents c.1,
      totalBids := app.totalFor c.1 })

/-! ## Start-up -/

/-- The struct `RtbAppOptions.PacerOptions`. -/
structure PacerOptions where
  UsePacer : Bool
  TimeSegmentInSeconds : Int
  deriving DecidableEq, Repr

/-- The struct `RtbAppOptions.DataAccessOptions`. -/
structure DataAccessOptions where
  Network : String
  Address : String
  ConnectionPoolSize : Int
  deriving DecidableEq, Repr

/-- The struct `RtbAppOptions.LoggingOptions`; `File` is `none` for a nil `*os.File`. -/
structure LoggingOptions where
  AmqpAddress : String
  File : Option String
  Verbose : Bool
  FullBidResponse : Bool
  deriving DecidableEq, Repr

/-- The struct `RtbAppOptions`. -/
structure RtbAppOptions where
  Domain : String
  PeriodicUpdates : Bool
  UpdateFrequencyInSeconds : Int
  PacerOptions : PacerOptions
  DataAccessOptions : DataAccessOptions
  LoggingOptions : LoggingOptions
  deriving DecidableEq, Repr

/-- The functions `NewRtbApp` starts with a `go` statement. -/
inductive Task where
  | LogBids
  | BidTotalUpdater
  | PrintUpdates
  deriving DecidableEq, Repr

/-- A `go` statement that was executed: the function started and the
application as it was at that statement. -/
structure Spawn (Req Budgets : Type) where
  task : Task
  seen : RtbApp Req Budgets

/-- What a call of `NewRtbApp` leaves behind: the application, the `go`
statements it executed, in order, and the panic that ended the call, if one
did.  With `panicked = none` the call returned and `app` is what it returned. -/
structure Startup (Req Budgets : Type) where
  app : RtbApp Req Budgets
  spawned : List (Spawn Req Budgets)
  panicked : Option String

/-- The value `time.Duration(seconds) * time.Second`: nanoseconds in an `int64`. -/
def secondsDuration (seconds : Int) : Int := wrapInt64 (seconds * 1000000000)

/-- The function `CreateDefaultCampaigns` (lines 55-61): five campaigns are
created through the campaign provider. -/
def CreateDefaultCampaigns {Req Budgets : Type} (app : RtbApp Req Budgets) : RtbApp Req Budgets :=
  { app with campaignProvider := app.campaignProvider.map fun cp =>
      { cp with created := cp.created ++ [100101, 100102, 100103, 100104, 100105] } }

/-- Lines 157-166 of `NewRtbApp`: the logger, its channel and its task. -/
def startLogging {Req Budgets : Type} (options : RtbAppOptions) (s : Startup Req Budgets) :
    Startup Req Budgets :=
  if options.LoggingOptions.Verbose ∨ options.LoggingOptions.FullBidResponse then
    let logger : BidLogProducer :=
      match options.LoggingOptions.File with
      | some f => BidLogProducer.file f options.LoggingOptions.FullBidResponse
      | none => BidLogProducer.amqp options.LoggingOptions.AmqpAddress options.Domain
    let app1 := { s.app with logger := some logger }
    let app2 := { app1 with bidLoggerChannel := some (Chan.make 0) }
    { s with app := app2, spawned := s.spawned ++ [{ task := Task.LogBids, seen := app2 }] }
  else s

/-- Lines 168-176 of `NewRtbApp`: the data access, the banker, the campaign
provider, the pacer and the default campaigns. -/
def startDataAccess {Req Budgets : Type} (options : RtbAppOptions) (s : Startup Req Budgets) :
    Startup Req Budgets :=
  let da : DataAccess :=
    { network := s.app.redisNetwork, address := s.app.redisAddress, domain := s.app.domain,
      poolSize := options.DataAccessOptions.ConnectionPoolSize }
  let app1 := { s.app with banker := some da }
  let app2 := { app1 with campaignProvider := some { da := da, created := [] } }
  let pacer : Pacer :=
    { da := da, segment := secondsDuration options.PacerOptions.TimeSegmentInSeconds }
  let app3 := if options.PacerOptions.UsePacer then { app2 with pacer := some pacer } else app2
  { s with app := CreateDefaultCampaigns app3 }

/-- Lines 178-183 of `NewRtbApp`: the ticker and the two tasks of the periodic
updates.  The call `time.NewTicker(d)` panics when `d` is not positive, and
then neither `go` statement is reached. -/
def startPeriodicUpdates {Req Budgets : Type} (options : RtbAppOptions) (s : Startup Req Budgets) :
    Startup Req Budgets :=
  if options.PeriodicUpdates then
    let d := secondsDuration options.UpdateFrequencyInSeconds
    if d ≤ 0 then { s with panicked := some "non-positive interval for NewTicker" }
    else
      let app1 := { s.app with updateTicker := some d }
      { s with
        app := app1,
        spawned := s.spawned ++ [{ task := Task.BidTotalUpdater, seen := app1 },
                                 { task := Task.PrintUpdates, seen := app1 }] }
  else s

/-- A goroutine executes a receive on a channel variable that has nothing to
hand over: it parks on the channel.  On the nil channel it parks for ever and
no channel changes. -/
def parkReceiver {α : Type} : Option (Chan α) → Option (Chan α)
  | none => none
  | some c => some { c with recvq := c.recvq + 1 }

/-- A started task runs up to the first receive of its loop: `LogBids` on
`bidLoggerChannel` (line 144), `BidTotalUpdater` on `accountBids` (line 126),
`PrintUpdates` on the channel of the ticker (line 119), which is no field of the
application. -/
def Task.park {Req Budgets : Type} (app : RtbApp Req Budgets) : Task → RtbApp Req Budgets
  | Task.LogBids => { app with bidLoggerChannel := parkReceiver app.bidLoggerChannel }
  | Task.BidTotalUpdater => { app with accountBids := parkReceiver app.accountBids }
  | Task.PrintUpdates => app

/-- The started tasks run up to their first receive, on the application as
`NewRtbApp` returns it: the schedule in which the function of a `go` statement
starts once the goroutine that executed the statement has moved on. -/
def parkSpawned {Req Budgets : Type} (spawned : List (Spawn Req Budgets))
    (app : RtbApp Req Budgets) : RtbApp Req Budgets :=
  spawned.foldl (fun a sp => sp.task.park a) app

/-- Lines 185-188 of `NewRtbApp`, reached when nothing panicked: the stats
channel and the map are made and the application is returned; the tasks started
before then reach their first receive. -/
def finishStartup {Req Budgets : Type} (s : Startup Req Budgets) : Startup Req Budgets :=
  match s.panicked with
  | some _ => s
  | none =>
    let app4 := { s.app with accountBids := some (Chan.make 0) }
    let app5 := { app4 with bidTotals := some BidTotals.empty }
    { s with app := parkSpawned s.spawned app5 }

/-- The function `NewRtbApp` (lines 150-189).  The constructors of the loggers
and of the Redis handles are taken to return. -/
def NewRtbApp (Req Budgets : Type) (options : RtbAppOptions) : Startup Req Budgets :=
  let app0 := RtbApp.zero Req Budgets
  let app1 := { app0 with domain := options.Domain }
  let app2 := { app1 with redisAddress := options.DataAccessOptions.Address }
  let app3 := { app2 with redisNetwork := options.DataAccessOptions.Network }
  let s1 := startLogging options { app := app3, spawned := [], panicked := none }
  let s2 := startDataAccess options s1
  let s3 := startPeriodicUpdates options s2
  finishStartup s3

/-! ## The running application as a transition system -/

/-- What can happen to a running application: `BidTotalUpdater` goes once round
its loop with the response it received, the server calls `BidRequestHandler`,
or `PrintCampaigns` is called. -/
inductive AppEvent where
  | updater (rsp : BidResponse)
  | request (w : ResponseWriter) (r : HttpRequest)
  | report (campaigns : List Int)

/-- The bid line-items of a response, in the order `BidTotalUpdater` visits them. -/
def lineItems (rsp : BidResponse) : List Bid :=
  ((rsp.Seatbid.getD []).map fun sb => sb.Bid.getD []).flatten

/-- One round of the loop of `BidTotalUpdater` on the application: `none` is
the panic of a write to the nil map. -/
def RtbApp.updaterStep {Req Budgets : Type} (app : RtbApp Req Budgets) (rsp : BidResponse) :
    Option (RtbApp Req Budgets) :=
  match app.bidTotals with
  | some m => some { app with bidTotals := some (accountResponse m rsp) }
  | none => if (lineItems rsp).isEmpty then some app else none

/-- The application after one event; `none` when the updater panicked. -/
def RtbApp.step {Req Budgets : Type} (env : Env Req Budgets) (app : RtbApp Req Budgets) :
    AppEvent → Option (RtbApp Req Budgets)
  | AppEvent.updater rsp => app.updaterStep rsp
  | AppEvent.request w r => some (BidRequestHandler env app w r).app
  | AppEvent.report campaigns => some (PrintCampaigns env app campaigns).1

/-- The application after a sequence of events. -/
def RtbApp.run {Req Budgets : Type} (env : Env Req Budgets) :
    RtbApp Req Budgets → List AppEvent → Option (RtbApp Req Budgets)
  | app, [] => some app
  | app, e :: es => (app.step env e).bind fun app1 => RtbApp.run env app1 es

/-! ## Vocabulary of the specification -/

/-- The line-items of a sequence of responses, in the order they are visited. -/
def allLineItems (rsps : List BidResponse) : List Bid := (rsps.map lineItems).flatten

/-- The number of line-items for which `ParseInt` returns the value `c`, with
or without an error. -/
def returnedCount (c : Int) (rsps : List BidResponse) : Nat :=
  (allLineItems rsps).countP fun b => decide ((ParseInt b.Cid).1 = c)

/-- The number of line-items whose `Cid` parses to `c`: `ParseInt` returns `c`
and no error. -/
def parsedCount (c : Int) (rsps : List BidResponse) : Nat :=
  (allLineItems rsps).countP fun b => decide (ParseInt b.Cid = (c, none))

/-- The responses consumed by the updater events of a sequence of events. -/
def updaterResponses : List AppEvent → List BidResponse
  | [] => []
  | AppEvent.updater rsp :: es => rsp :: updaterResponses es
  | AppEvent.request _ _ :: es => updaterResponses es
  | AppEvent.report _ :: es => updaterResponses es

/-- A response made of one seat-bid with the given campaign ids. -/
def responseOf (cids : List String) : BidResponse :=
  { Seatbid := some [{ Bid := some (cids.map fun cid => { Cid := cid }) }] }

/-- A response made of one seat-bid with `n` line-items of campaign id `cid`. -/
def repeated (n : Nat) (cid : String) : BidResponse :=
  { Seatbid := some [{ Bid := some (List.replicate n { Cid := cid }) }] }

/-! ## Concrete collaborators for the closed statements -/

/-- Options with every feature switched off. -/
def quietOptions : RtbAppOptions :=
  { Domain := "rtb-interview", PeriodicUpdates := false, UpdateFrequencyInSeconds := 5,
    PacerOptions := { UsePacer := false, TimeSegmentInSeconds := 300 },
    DataAccessOptions := { Network := "tcp", Address := "localhost:6379", ConnectionPoolSize := 100 },
    LoggingOptions := { AmqpAddress := "", File := none, Verbose := false, FullBidResponse := false } }

/-- The options of `main.go` with its default flags, but logging each request to standard output. -/
def verboseOptions : RtbAppOptions :=
  { quietOptions with
    PeriodicUpdates := true,
    LoggingOptions := { AmqpAddress := "", File := some "stdout", Verbose := true, FullBidResponse := false } }

/-- Each request is logged to standard output and the periodic updates are off
(`-logverbose -periodicupdates=false`). -/
def logOnlyOptions : RtbAppOptions :=
  { quietOptions with
    LoggingOptions := { AmqpAddress := "", File := some "stdout", Verbose := true, FullBidResponse := false } }

/-- A decoder that accepts the body `ok` as the request `1` and rejects every
other body, leaving the zero request `0`; a bidder that bids on request `1`
with one line-item of campaign 100101 and declines every other request; a
codec that serialises every response. -/
def sampleEnv : Env Nat Nat :=
  { Unmarshal := fun body => if body = "ok" then (1, none) else (0, some "invalid character"),
    Bid := fun req _ => if req = 1 then (some (responseOf ["100101"]), 7, none) else (none, 7, none),
    Marshal := fun _ => Except.ok "{}",
    now := fun k => k,
    ReadCampaign := fun id => (id, 320),
    RemainingDailyBudgetInMicroCents := fun _ => 0 }

/-- The collaborators of `sampleEnv` with a codec that fails on every response. -/
def failingMarshalEnv : Env Nat Nat :=
  { sampleEnv with Marshal := fun _ => Except.error "json: unsupported value" }

/-- A request whose body decodes. -/
def goodRequest : HttpRequest := { Body := RequestBody.readable "ok" }

/-- A request whose body is read but does not decode. -/
def garbledRequest : HttpRequest := { Body := RequestBody.readable "not json" }

/-- A request whose body cannot be read. -/
def brokenRequest : HttpRequest := { Body := RequestBody.failing "unexpected EOF" }

/-- The application with a consumer parked on each of its channels. -/
def withConsumers {Req Budgets : Type} (app : RtbApp Req Budgets) : RtbApp Req Budgets :=
  { app with
    accountBids := app.accountBids.map fun c => { c with recvq := c.recvq + 1 },
    bidLoggerChannel := app.bidLoggerChannel.map fun c => { c with recvq := c.recvq + 1 } }

/-- Whether the statement `ch <- v` completes at once. -/
def chanReady {α : Type} : Option (Chan α) → Bool
  | none => false
  | some c => decide (0 < c.recvq) || decide (c.buf.length < c.cap)

/-- The bidder answers the request with no error and the response `b`, and
`b` serialises to `js`: the condition of lines 85 and 88. -/
def Served {Req Budgets : Type} (env : Env Req Budgets) (bidRequest : Req)
    (b : BidResponse) (js : String) : Prop :=
  (env.Bid bidRequest (env.now 1)).1 = some b ∧ (env.Bid bidRequest (env.now 1)).2.2 = none ∧
    env.Marshal b = Except.ok js

/-- The log item of line 103 for a request. -/
def logItemFor {Req Budgets : Type} (env : Env Req Budgets) (app : RtbApp Req Budgets)
    (bidRequest : Req) : BidLogItem Req Budgets :=
  { Domain := app.domain, BidRequest := bidRequest,
    BidResponse := (env.Bid bidRequest (env.now 1)).1,
    RemainingDailyBudgetsInMicroCents := (env.Bid bidRequest (env.now 1)).2.1,
    StartTimestampInNanoseconds := env.now 0,
    EndTimestampInNanoseconds := env.now 2 }

/-! # Theorems -/

/-! ## Machine integers -/

theorem wrapInt64_add (a b : Int) : wrapInt64 (wrapInt64 a + b) = wrapInt64 (a + b) := by
  unfold wrapInt64
  omega

theorem wrapInt64_of_range (v : Int) (h0 : -(2 ^ 63) ≤ v) (h1 : v < 2 ^ 63) :
    wrapInt64 v = v := by
  unfold wrapInt64
  omega

/-! ## The updater as a fold over line-items -/

theorem accountSeatBid_eq (m : BidTotals) (sb : SeatBid) :
    accountSeatBid m sb = (sb.Bid.getD []).foldl accountBid m := by
  unfold accountSeatBid
  cases sb.Bid <;> rfl

theorem foldl_accountSeatBid (sbs : List SeatBid) (m : BidTotals) :
    sbs.foldl accountSeatBid m
      = ((sbs.map fun sb => sb.Bid.getD []).flatten).foldl accountBid m := by
  induction sbs generalizing m with
  | nil => rfl
  | cons sb sbs ih =>
    simp only [List.foldl_cons, List.map_cons, List.flatten_cons, List.foldl_append]
    rw [ih, accountSeatBid_eq]

theorem accountResponse_eq (m : BidTotals) (rsp : BidResponse) :
    accountResponse m rsp = (lineItems rsp).foldl accountBid m := by
  unfold accountResponse lineItems
  cases h : rsp.Seatbid with
  | none => rfl
  | some sbs => simpa using foldl_accountSeatBid sbs m

theorem BidTotalUpdater_eq (rsps : List BidResponse) (m : BidTotals) :
    BidTotalUpdater m rsps = (allLineItems rsps).foldl accountBid m := by
  unfold BidTotalUpdater allLineItems
  induction rsps generalizing m with
  | nil => rfl
  | cons rsp rsps ih =>
    simp only [List.foldl_cons, List.map_cons, List.flatten_cons, List.foldl_append]
    rw [ih, accountResponse_eq]

theorem accountBid_get (m : BidTotals) (b : Bid) (c : Int) :
    (accountBid m b).get c
      = if (ParseInt b.Cid).1 = c then wrapInt64 (m.get c + 1) else m.get c := by
  unfold accountBid BidTotals.get BidTotals.set
  by_cases h : (ParseInt b.Cid).1 = c
  · simp [h]
  · have h2 : ¬ c = (ParseInt b.Cid).1 := fun e => h e.symm
    simp [h, h2]

theorem accountBid_other (m : BidTotals) (b : Bid) (j : Int) (h : j ≠ (ParseInt b.Cid).1) :
    accountBid m b j = m j := by
  unfold accountBid BidTotals.set
  simp [h]

theorem accountBid_keeps_key (m : BidTotals) (b : Bid) (c : Int) (h : m c ≠ none) :
    accountBid m b c ≠ none := by
  unfold accountBid BidTotals.set
  by_cases hc : c = (ParseInt b.Cid).1
  · simp [hc]
  · simpa [hc] using h

theorem foldl_accountBid_keeps_key (bs : List Bid) (m : BidTotals) (c : Int) (h : m c ≠ none) :
    bs.foldl accountBid m c ≠ none := by
  induction bs generalizing m with
  | nil => exact h
  | cons b bs ih => exact ih _ (accountBid_keeps_key m b c h)

theorem foldl_accountBid_get (bs : List Bid) (c : Int) :
    (bs.foldl accountBid BidTotals.empty).get c
      = wrapInt64 ((bs.countP fun b => decide ((ParseInt b.Cid).1 = c) : Nat) : Int) := by
  induction bs using List.reverseRecOn with
  | nil => simp [BidTotals.get, BidTotals.empty, wrapInt64]
  | append_singleton bs b ih =>
    rw [List.foldl_append, List.foldl_cons, List.foldl_nil, accountBid_get, ih,
      List.countP_append]
    by_cases h : (ParseInt b.Cid).1 = c
    · simp only [h, if_true, List.countP_cons, List.countP_nil, decide_True]
      rw [wrapInt64_add]
      push_cast
      rfl
    · simp [h]

theorem BidTotalUpdater_get (rsps : List BidResponse) (c : Int) :
    (BidTotalUpdater BidTotals.empty rsps).get c = wrapInt64 (returnedCount c rsps : Int) := by
  rw [BidTotalUpdater_eq]
  exact foldl_accountBid_get _ c

theorem allLineItems_append (r1 r2 : List BidResponse) :
    allLineItems (r1 ++ r2) = allLineItems r1 ++ allLineItems r2 := by
  simp [allLineItems]

theorem returnedCount_append (c : Int) (r1 r2 : List BidResponse) :
    returnedCount c (r1 ++ r2) = returnedCount c r1 + returnedCount c r2 := by
  simp [returnedCount, allLineItems_append]

theorem BidTotalUpdater_append (m : BidTotals) (r1 r2 : List BidResponse) :
    BidTotalUpdater m (r1 ++ r2) = BidTotalUpdater (BidTotalUpdater m r1) r2 := by
  simp [BidTotalUpdater]

theorem BidTotalUpdater_keeps_key (rsps : List BidResponse) (m : BidTotals) (c : Int)
    (h : m c ≠ none) : BidTotalUpdater m rsps c ≠ none := by
  rw [BidTotalUpdater_eq]
  exact foldl_accountBid_keeps_key _ m c h

theorem returnedCount_repeated (n : Nat) (cid : String) (c : Int) (h : (ParseInt cid).1 = c) :
    returnedCount c [repeated n cid] = n := by
  simp [returnedCount, allLineItems, lineItems, repeated, List.countP_replicate, h]

theorem returnedCount_replicate_single (n : Nat) (cid : String) (c : Int)
    (h : (ParseInt cid).1 = c) :
    returnedCount c (List.replicate n (responseOf [cid])) = n := by
  induction n with
  | zero => simp [returnedCount, allLineItems]
  | succ n ih =>
    rw [List.replicate_succ, ← List.singleton_append, returnedCount_append, ih]
    simp [returnedCount, allLineItems, lineItems, responseOf, h]
    omega

/-! ## `ParseInt` on a string it rejects -/

theorem ParseInt_error_value (s : String) (e : NumError) (h : (ParseInt s).2 = some e) :
    (e = NumError.ErrSyntax → (ParseInt s).1 = 0) ∧
    (e = NumError.ErrRange → (ParseInt s).1 = 2 ^ 63 - 1 ∨ (ParseInt s).1 = -(2 ^ 63)) := by
  unfold ParseInt at h ⊢
  cases hd : s.data with
  | nil =>
    simp only [hd] at h ⊢
    cases h
    simp
  | cons c rest =>
    simp only [hd] at h ⊢
    generalize ParseUint (if c = '+' ∨ c = '-' then rest else c :: rest) = r at h ⊢
    by_cases h1 : r.2 = some NumError.ErrSyntax
    · simp only [h1, if_true] at h ⊢
      cases h
      simp
    · simp only [h1, if_false] at h ⊢
      by_cases h2 : decide (c = '-') = false ∧ r.1 ≥ 2 ^ 63
      · simp only [h2, and_self, if_true] at h ⊢
        cases h
        simp
      · simp only [h2, if_false] at h ⊢
        by_cases h3 : decide (c = '-') = true ∧ r.1 > 2 ^ 63
        · simp only [h3, and_self, if_true] at h ⊢
          cases h
          simp
        · simp only [h3, if_false] at h
          cases h

/-! ## Channels -/

theorem Chan.send_sent {α : Type} (c : Chan α) (v : α) : (c.send v).1.sent = c.sent ++ [v] := by
  unfold Chan.send
  split_ifs <;> rfl

theorem chanSend_sent {α : Type} (c : Chan α) (v : α) :
    chanSent (chanSend (some c) v).1 = chanSent (some c) ++ [v] := by
  simp [chanSend, chanSent, Chan.send_sent]

theorem chanSend_ready {α : Type} (ch : Option (Chan α)) (v : α) :
    (chanSend ch v).2 = chanReady ch := by
  cases ch with
  | none => rfl
  | some c =>
    simp only [chanSend, chanReady, Chan.send]
    by_cases h1 : 0 < c.recvq
    · simp [h1]
    · by_cases h2 : c.buf.length < c.cap <;> simp [h1, h2]

/-! ## The handler, path by path -/

theorem logStep_w {Req Budgets : Type} (env : Env Req Budgets) (app : RtbApp Req Budgets)
    (w : ResponseWriter) (q : Req) (b : Option BidResponse) (rem : Budgets) (t : Int) :
    (logStep env app w q b rem t).w = w := by
  unfold logStep
  cases app.logger <;> rfl

theorem logStep_accountBids {Req Budgets : Type} (env : Env Req Budgets)
    (app : RtbApp Req Budgets) (w : ResponseWriter) (q : Req) (b : Option BidResponse)
    (rem : Budgets) (t : Int) :
    (logStep env app w q b rem t).app.accountBids = app.accountBids := by
  unfold logStep
  cases app.logger <;> rfl

theorem logStep_bidTotals {Req Budgets : Type} (env : Env Req Budgets)
    (app : RtbApp Req Budgets) (w : ResponseWriter) (q : Req) (b : Option BidResponse)
    (rem : Budgets) (t : Int) :
    (logStep env app w q b rem t).app.bidTotals = app.bidTotals := by
  unfold logStep
  cases app.logger <;> rfl

theorem logStep_not_panicked {Req Budgets : Type} (env : Env Req Budgets)
    (app : RtbApp Req Budgets) (w : ResponseWriter) (q : Req) (b : Option BidResponse)
    (rem : Budgets) (t : Int) (err : String) :
    (logStep env app w q b rem t).outcome ≠ Outcome.panicked err := by
  unfold logStep
  cases app.logger with
  | none => simp
  | some l =>
    simp only
    split_ifs <;> simp

theorem logStep_off {Req Budgets : Type} (env : Env Req Budgets)
    (app : RtbApp Req Budgets) (w : ResponseWriter) (q : Req) (b : Option BidResponse)
    (rem : Budgets) (t : Int) (h : app.logger = none) :
    logStep env app w q b rem t = { app := app, w := w, outcome := Outcome.returned } := by
  unfold logStep
  rw [h]

theorem handle_served {Req Budgets : Type} (env : Env Req Budgets) (app : RtbApp Req Budgets)
    (w : ResponseWriter) (q : Req) (b : BidResponse) (js : String) (h : Served env q b js) :
    handleBidRequest env app w q =
      if (chanSend app.accountBids b).2 then
        logStep env { app with accountBids := (chanSend app.accountBids b).1 }
          (((w.WriteHeader StatusOK).HeaderSet "Content-Type" "application/json").Write js)
          q (some b) (env.Bid q (env.now 1)).2.1 (env.now 0)
      else
        { app := { app with accountBids := (chanSend app.accountBids b).1 },
          w := ((w.WriteHeader StatusOK).HeaderSet "Content-Type" "application/json").Write js,
          outcome := Outcome.blockedOnAccountBids } := by
  obtain ⟨h1, h2, h3⟩ := h
  unfold handleBidRequest
  simp only [h1, h2, h3]

theorem handle_not_served {Req Budgets : Type} (env : Env Req Budgets)
    (app : RtbApp Req Budgets) (w : ResponseWriter) (q : Req)
    (h : ¬ ∃ b js, Served env q b js) :
    handleBidRequest env app w q =
      logStep env app (w.WriteHeader StatusNoContent) q (env.Bid q (env.now 1)).1
        (env.Bid q (env.now 1)).2.1 (env.now 0) := by
  unfold handleBidRequest
  simp only
  split
  · next b he hb =>
    split
    · next js hjs => exact absurd ⟨b, js, hb, he, hjs⟩ h
    · rfl
  · rfl

theorem BidRequestHandler_decoded {Req Budgets : Type} (env : Env Req Budgets)
    (app : RtbApp Req Budgets) (w : ResponseWriter) (r : HttpRequest) (q : Req)
    (h : bidRequestForHttpRequest env r = Except.ok q) :
    BidRequestHandler env app w r = handleBidRequest env app w q := by
  unfold BidRequestHandler
  rw [h]

theorem handleBidRequest_bidTotals {Req Budgets : Type} (env : Env Req Budgets)
    (app : RtbApp Req Budgets) (w : ResponseWriter) (q : Req) :
    (handleBidRequest env app w q).app.bidTotals = app.bidTotals := by
  by_cases h : ∃ b js, Served env q b js
  · obtain ⟨b, js, hs⟩ := h
    rw [handle_served env app w q b js hs]
    split_ifs
    · rw [logStep_bidTotals]
    · rfl
  · rw [handle_not_served env app w q h, logStep_bidTotals]

theorem BidRequestHandler_bidTotals {Req Budgets : Type} (env : Env Req Budgets)
    (app : RtbApp Req Budgets) (w : ResponseWriter) (r : HttpRequest) :
    (BidRequestHandler env app w r).app.bidTotals = app.bidTotals := by
  unfold BidRequestHandler
  cases bidRequestForHttpRequest env r with
  | error err => rfl
  | ok q => exact handleBidRequest_bidTotals env app w q

/-! ## The running application -/

theorem updaterResponses_cons (e : AppEvent) (es : List AppEvent) :
    updaterResponses (e :: es) = updaterResponses [e] ++ updaterResponses es := by
  cases e <;> rfl

theorem updaterResponses_append (es1 es2 : List AppEvent) :
    updaterResponses (es1 ++ es2) = updaterResponses es1 ++ updaterResponses es2 := by
  induction es1 with
  | nil => rfl
  | cons e es ih =>
    rw [List.cons_append, updaterResponses_cons, ih, updaterResponses_cons e es,
      List.append_assoc]

theorem step_bidTotals {Req Budgets : Type} (env : Env Req Budgets) (app : RtbApp Req Budgets)
    (m : BidTotals) (e : AppEvent) (h : app.bidTotals = some m) :
    ∃ app1, app.step env e = some app1 ∧
      app1.bidTotals = some (BidTotalUpdater m (updaterResponses [e])) := by
  cases e with
  | updater rsp =>
    refine ⟨{ app with bidTotals := some (accountResponse m rsp) }, ?_, rfl⟩
    simp only [RtbApp.step, RtbApp.updaterStep, h]
  | request w r =>
    exact ⟨_, rfl, by rw [BidRequestHandler_bidTotals, h]; rfl⟩
  | report cs => exact ⟨app, rfl, h⟩

theorem run_bidTotals {Req Budgets : Type} (env : Env Req Budgets) (es : List AppEvent)
    (app : RtbApp Req Budgets) (m : BidTotals) (h : app.bidTotals = some m) :
    ∃ app1, app.run env es = some app1 ∧
      app1.bidTotals = some (BidTotalUpdater m (updaterResponses es)) := by
  induction es generalizing app m with
  | nil => exact ⟨app, rfl, h⟩
  | cons e es ih =>
    obtain ⟨app1, hs, hb⟩ := step_bidTotals env app m e h
    obtain ⟨app2, hr, hb2⟩ := ih app1 _ hb
    refine ⟨app2, ?_, ?_⟩
    · simp only [RtbApp.run, hs]
      exact hr
    · rw [hb2, updaterResponses_cons e es, BidTotalUpdater_append]

theorem run_totalFor {Req Budgets : Type} (env : Env Req Budgets) (es : List AppEvent)
    (app : RtbApp Req Budgets) (h : app.bidTotals = some BidTotals.empty) (c : Int) :
    (app.run env es).map (fun a => a.totalFor c)
      = some (wrapInt64 (returnedCount c (updaterResponses es) : Int)) := by
  obtain ⟨app1, hr, hb⟩ := run_bidTotals env es app _ h
  rw [hr, Option.map_some', RtbApp.totalFor, hb]
  simp only [BidTotalUpdater_get]

theorem returnedCount_cons (c : Int) (r : BidResponse) (rs : List BidResponse) :
    returnedCount c (r :: rs) = returnedCount c [r] + returnedCount c rs := by
  rw [← List.singleton_append, returnedCount_append]

theorem returnedCount_nil (c : Int) : returnedCount c [] = 0 := rfl

/-! ## The claims on the statistics store -/

/-- C1, as the code has it: after any sequence of responses consumed from the
empty map, `bidTotals[c]` is the `int64` holding the number of line-items for
which `ParseInt` returned `c` (its error discarded), which is that number
itself below `2^63`; `N` single-item responses for a campaign give `N`; a
response without line-items changes nothing. -/
theorem C1_bidTotals_count_returned_ids (rsps : List BidResponse) (c : Int) :
    (BidTotalUpdater BidTotals.empty rsps).get c = wrapInt64 (returnedCount c rsps : Int) ∧
    (returnedCount c rsps < 2 ^ 63 →
      (BidTotalUpdater BidTotals.empty rsps).get c = (returnedCount c rsps : Int)) ∧
    (∀ (N : Nat) (cid : String), (ParseInt cid).1 = c → N < 2 ^ 63 →
      (BidTotalUpdater BidTotals.empty (List.replicate N (responseOf [cid]))).get c = (N : Int)) ∧
    (∀ (m : BidTotals) (rsp : BidResponse), lineItems rsp = [] → accountResponse m rsp = m) := by
  refine ⟨BidTotalUpdater_get rsps c, ?_, ?_, ?_⟩
  · intro h
    rw [BidTotalUpdater_get]
    apply wrapInt64_of_range <;> omega
  · intro N cid hc hN
    rw [BidTotalUpdater_get, returnedCount_replicate_single N cid c hc]
    apply wrapInt64_of_range <;> omega
  · intro m rsp h
    rw [accountResponse_eq, h]
    rfl

/-- C1 at a concrete input: two single-item responses for campaign 100101. -/
theorem C1_two_responses_witness :
    (BidTotalUpdater BidTotals.empty [responseOf ["100101"], responseOf ["100101"]]).get 100101
      = ((returnedCount 100101 [responseOf ["100101"], responseOf ["100101"]] : Nat) : Int) :=
  (C1_bidTotals_count_returned_ids [responseOf ["100101"], responseOf ["100101"]] 100101).2.1
    (by decide)

/-- C1 as stated fails: one line-item with the malformed campaign id `abc`
raises `bidTotals[0]` to 1, though no line-item has a `Cid` that parses to 0. -/
theorem C1_malformed_cid_raises_campaign_zero :
    ParseInt "abc" = (0, some NumError.ErrSyntax) ∧
    (BidTotalUpdater BidTotals.empty [responseOf ["abc"]]).get 0 = 1 ∧
    parsedCount 0 [responseOf ["abc"]] = 0 := by
  decide

/-- C7, as the code has it: a line-item whose `Cid` is rejected by `ParseInt`
is not skipped.  The value returned with the error (0 for a malformed string,
the `int64` bound of the sign for a string out of range) is used as the
campaign id, that counter is incremented, every other entry is unchanged, and
the line-items before and after it in the seat-bid are counted as usual. -/
theorem C7_rejected_cid_is_counted (m : BidTotals) (bid : Bid) (e : NumError)
    (h : (ParseInt bid.Cid).2 = some e) :
    (e = NumError.ErrSyntax → (ParseInt bid.Cid).1 = 0) ∧
    (e = NumError.ErrRange →
      (ParseInt bid.Cid).1 = 2 ^ 63 - 1 ∨ (ParseInt bid.Cid).1 = -(2 ^ 63)) ∧
    (accountBid m bid).get (ParseInt bid.Cid).1 = wrapInt64 (m.get (ParseInt bid.Cid).1 + 1) ∧
    (∀ j : Int, j ≠ (ParseInt bid.Cid).1 → accountBid m bid j = m j) ∧
    (∀ pre post : List Bid,
      accountSeatBid m { Bid := some (pre ++ bid :: post) }
        = post.foldl accountBid (accountBid (pre.foldl accountBid m) bid)) := by
  refine ⟨(ParseInt_error_value _ e h).1, (ParseInt_error_value _ e h).2, ?_, ?_, ?_⟩
  · rw [accountBid_get, if_pos rfl]
  · intro j hj
    exact accountBid_other m bid j hj
  · intro pre post
    simp [accountSeatBid]

/-- C7 at a concrete input: the malformed id `x9` on the empty map. -/
theorem C7_rejected_cid_witness :
    (ParseInt "x9").2 = some NumError.ErrSyntax ∧
    (accountBid BidTotals.empty { Cid := "x9" }).get (ParseInt "x9").1
      = wrapInt64 (BidTotals.empty.get (ParseInt "x9").1 + 1) :=
  ⟨by decide,
    (C7_rejected_cid_is_counted BidTotals.empty { Cid := "x9" } NumError.ErrSyntax
      (by decide)).2.2.1⟩

/-- C7 as stated fails: in a response with the line-items `7`, `x9`, `7` the
malformed `x9` increments the counter of campaign 0, and a `Cid` above the
`int64` range increments the counter of campaign `2^63 - 1`. -/
theorem C7_malformed_cid_not_skipped :
    (ParseInt "x9").2 = some NumError.ErrSyntax ∧
    (BidTotalUpdater BidTotals.empty [responseOf ["7", "x9", "7"]]).get 0 = 1 ∧
    (BidTotalUpdater BidTotals.empty [responseOf ["7", "x9", "7"]]).get 7 = 2 ∧
    (ParseInt "9223372036854775808").2 = some NumError.ErrRange ∧
    (BidTotalUpdater BidTotals.empty [responseOf ["9223372036854775808"]]).get (2 ^ 63 - 1) = 1 := by
  decide

theorem run_append {Req Budgets : Type} (env : Env Req Budgets) (es1 es2 : List AppEvent)
    (app : RtbApp Req Budgets) :
    app.run env (es1 ++ es2) = (app.run env es1).bind fun a => a.run env es2 := by
  induction es1 generalizing app with
  | nil => rfl
  | cons e es ih =>
    simp only [List.cons_append, RtbApp.run]
    cases app.step env e with
    | none => rfl
    | some a => exact ih a

theorem run_single {Req Budgets : Type} (env : Env Req Budgets) (e : AppEvent)
    (app : RtbApp Req Budgets) : app.run env [e] = app.step env e := by
  simp only [RtbApp.run]
  cases app.step env e <;> rfl

/-- C8, as the code has it: from the empty map, any sequence of updater steps,
handler calls and report calls can be run (the updater never panics), no step
removes a key, a handler call or a report call leaves the map as it is, and
each counter is the `int64` holding the number of line-items counted for it;
so as long as that number is below `2^63` after the step, the counter is
non-negative and not smaller than before the step. -/
theorem C8_counters_grow_below_overflow {Req Budgets : Type} (env : Env Req Budgets)
    (app0 : RtbApp Req Budgets) (h0 : app0.bidTotals = some BidTotals.empty)
    (es : List AppEvent) (e : AppEvent) :
    ∃ app1 app2 m1 m2, app0.run env es = some app1 ∧ app1.step env e = some app2 ∧
      app1.bidTotals = some m1 ∧ app2.bidTotals = some m2 ∧
      (∀ c : Int, m1 c ≠ none → m2 c ≠ none) ∧
      (∀ c : Int, m2.get c
        = wrapInt64 (m1.get c + (returnedCount c (updaterResponses [e]) : Int))) ∧
      (∀ c : Int, returnedCount c (updaterResponses (es ++ [e])) < 2 ^ 63 →
        0 ≤ m2.get c ∧ m1.get c ≤ m2.get c) ∧
      (∀ w r, e = AppEvent.request w r → m2 = m1) ∧
      (∀ cs, e = AppEvent.report cs → m2 = m1) := by
  obtain ⟨app1, hr1, hb1⟩ := run_bidTotals env es app0 _ h0
  obtain ⟨app2, hs, hb2⟩ := step_bidTotals env app1 _ e hb1
  refine ⟨app1, app2, _, _, hr1, hs, hb1, hb2, ?_, ?_, ?_, ?_, ?_⟩
  · intro c hc
    exact BidTotalUpdater_keeps_key _ _ c hc
  · intro c
    rw [← BidTotalUpdater_append, BidTotalUpdater_get, BidTotalUpdater_get,
      returnedCount_append, wrapInt64_add]
    push_cast
    rfl
  · intro c hc
    rw [← BidTotalUpdater_append, BidTotalUpdater_get, BidTotalUpdater_get]
    rw [updaterResponses_append, returnedCount_append] at hc
    rw [returnedCount_append]
    rw [wrapInt64_of_range _ (by omega) (by omega), wrapInt64_of_range _ (by omega) (by omega)]
    omega
  · intro w r he
    subst he
    rfl
  · intro cs he
    subst he
    rfl

/-- C8 at a concrete input: the application built by `NewRtbApp`, one updater
step and then a handler call. -/
theorem C8_counters_grow_witness :
    (NewRtbApp Nat Nat quietOptions).app.bidTotals = some BidTotals.empty ∧
    ∃ app1 app2 m1 m2,
      (NewRtbApp Nat Nat quietOptions).app.run sampleEnv [AppEvent.updater (responseOf ["7"])]
        = some app1 ∧
      app1.step sampleEnv (AppEvent.request ResponseWriter.fresh goodRequest) = some app2 ∧
      app1.bidTotals = some m1 ∧ app2.bidTotals = some m2 ∧
      (∀ c : Int, m1 c ≠ none → m2 c ≠ none) ∧
      (∀ c : Int, m2.get c
        = wrapInt64 (m1.get c + (returnedCount c (updaterResponses
            [AppEvent.request ResponseWriter.fresh goodRequest]) : Int))) ∧
      (∀ c : Int, returnedCount c (updaterResponses ([AppEvent.updater (responseOf ["7"])] ++
            [AppEvent.request ResponseWriter.fresh goodRequest])) < 2 ^ 63 →
        0 ≤ m2.get c ∧ m1.get c ≤ m2.get c) ∧
      (∀ w r, AppEvent.request ResponseWriter.fresh goodRequest = AppEvent.request w r →
        m2 = m1) ∧
      (∀ cs, AppEvent.request ResponseWriter.fresh goodRequest = AppEvent.report cs → m2 = m1) :=
  ⟨rfl, C8_counters_grow_below_overflow sampleEnv (NewRtbApp Nat Nat quietOptions).app rfl
    [AppEvent.updater (responseOf ["7"])] (AppEvent.request ResponseWriter.fresh goodRequest)⟩

/-- C8 as stated fails: from the empty map of `NewRtbApp`, the updater step
that follows `2^63 - 1` counted line-items of campaign 7 takes the counter from
`2^63 - 1` to `-2^63`: it decreases and is negative. -/
theorem C8_counter_wraps_negative :
    ((NewRtbApp Nat Nat quietOptions).app.run sampleEnv
        [AppEvent.updater (repeated (2 ^ 63 - 1) "7")]).map (fun a => a.totalFor 7)
      = some (2 ^ 63 - 1) ∧
    ((NewRtbApp Nat Nat quietOptions).app.run sampleEnv
        [AppEvent.updater (repeated (2 ^ 63 - 1) "7"),
         AppEvent.updater (repeated 1 "7")]).map (fun a => a.totalFor 7)
      = some (-(2 ^ 63)) := by
  have h7 : (ParseInt "7").1 = 7 := by decide
  constructor
  · rw [run_totalFor sampleEnv _ _ rfl 7]
    simp only [updaterResponses]
    rw [returnedCount_repeated _ _ 7 h7]
    rw [wrapInt64_of_range _ (by omega) (by omega)]
    norm_num
  · rw [run_totalFor sampleEnv _ _ rfl 7]
    simp only [updaterResponses]
    rw [returnedCount_cons, returnedCount_repeated _ _ 7 h7, returnedCount_repeated _ _ 7 h7]
    unfold wrapInt64
    norm_num

/-! ## The claims on the handler -/

theorem handle_served_w {Req Budgets : Type} (env : Env Req Budgets) (app : RtbApp Req Budgets)
    (w : ResponseWriter) (q : Req) (b : BidResponse) (js : String) (h : Served env q b js) :
    (handleBidRequest env app w q).w
      = ((w.WriteHeader StatusOK).HeaderSet "Content-Type" "application/json").Write js := by
  rw [handle_served env app w q b js h]
  split_ifs
  · rw [logStep_w]
  · rfl

theorem handle_not_served_w {Req Budgets : Type} (env : Env Req Budgets)
    (app : RtbApp Req Budgets) (w : ResponseWriter) (q : Req)
    (h : ¬ ∃ b js, Served env q b js) :
    (handleBidRequest env app w q).w = w.WriteHeader StatusNoContent := by
  rw [handle_not_served env app w q h, logStep_w]

theorem WriteHeader_calls (w : ResponseWriter) (code : Nat) :
    (w.WriteHeader code).calls = w.calls ++ [code] := by
  unfold ResponseWriter.WriteHeader
  cases w.status <;> rfl

theorem Write_calls (w : ResponseWriter) (b : String) : (w.Write b).calls = w.calls := by
  unfold ResponseWriter.Write
  cases w.status <;> rfl

theorem handleBidRequest_calls {Req Budgets : Type} (env : Env Req Budgets)
    (app : RtbApp Req Budgets) (w : ResponseWriter) (q : Req) :
    (handleBidRequest env app w q).w.calls = w.calls ++ [StatusOK] ∨
    (handleBidRequest env app w q).w.calls = w.calls ++ [StatusNoContent] := by
  by_cases h : ∃ b js, Served env q b js
  · obtain ⟨b, js, hs⟩ := h
    left
    rw [handle_served_w env app w q b js hs, Write_calls]
    exact WriteHeader_calls w StatusOK
  · right
    rw [handle_not_served_w env app w q h]
    exact WriteHeader_calls w StatusNoContent

theorem handleBidRequest_not_panicked {Req Budgets : Type} (env : Env Req Budgets)
    (app : RtbApp Req Budgets) (w : ResponseWriter) (q : Req) (err : String) :
    (handleBidRequest env app w q).outcome ≠ Outcome.panicked err := by
  by_cases h : ∃ b js, Served env q b js
  · obtain ⟨b, js, hs⟩ := h
    rw [handle_served env app w q b js hs]
    split_ifs
    · exact logStep_not_panicked _ _ _ _ _ _ _ err
    · simp
  · rw [handle_not_served env app w q h]
    exact logStep_not_panicked _ _ _ _ _ _ _ err

/-- C2, as the code has it: when the body is read, the error of
`json.Unmarshal` has no effect.  The handler goes on with the request value the
decoder left behind, does not panic, and writes 200 or 204 as for any other
request, never a client error status.  When the body cannot be read the handler
panics, having written and enqueued nothing. -/
theorem C2_decode_error_is_discarded {Req Budgets : Type} (env : Env Req Budgets)
    (app : RtbApp Req Budgets) (w : ResponseWriter) (r : HttpRequest) (body : String)
    (hread : ReadAll r.Body = (body, none)) :
    BidRequestHandler env app w r = handleBidRequest env app w (env.Unmarshal body).1 ∧
    (∀ err, (BidRequestHandler env app w r).outcome ≠ Outcome.panicked err) ∧
    ((BidRequestHandler env app w r).w.calls = w.calls ++ [StatusOK] ∨
      (BidRequestHandler env app w r).w.calls = w.calls ++ [StatusNoContent]) ∧
    (∀ e, BidRequestHandler env app w { Body := RequestBody.failing e }
      = { app := app, w := w, outcome := Outcome.panicked e }) := by
  have h1 : BidRequestHandler env app w r
      = handleBidRequest env app w (env.Unmarshal body).1 := by
    unfold BidRequestHandler bidRequestForHttpRequest
    rw [hread]
  refine ⟨h1, ?_, ?_, ?_⟩
  · intro err
    rw [h1]
    exact handleBidRequest_not_panicked env app w _ err
  · rw [h1]
    exact handleBidRequest_calls env app w _
  · intro e
    rfl

/-- C2 at a concrete input: a body that is read and does not decode. -/
theorem C2_decode_error_witness :
    ReadAll garbledRequest.Body = ("not json", none) ∧
    BidRequestHandler sampleEnv (NewRtbApp Nat Nat quietOptions).app ResponseWriter.fresh
        garbledRequest
      = handleBidRequest sampleEnv (NewRtbApp Nat Nat quietOptions).app ResponseWriter.fresh
          (sampleEnv.Unmarshal "not json").1 :=
  ⟨rfl, (C2_decode_error_is_discarded sampleEnv (NewRtbApp Nat Nat quietOptions).app
    ResponseWriter.fresh garbledRequest "not json" rfl).1⟩

/-- C2 as stated fails: for a body that does not decode, with logging on, the
handler returns having written status 204, which is no client error, and having
sent one item on the log queue, with the zero request the decoder left behind. -/
theorem C2_undecodable_body_gets_204_and_is_logged :
    (sampleEnv.Unmarshal "not json").2 = some "invalid character" ∧
    (BidRequestHandler sampleEnv (withConsumers (NewRtbApp Nat Nat verboseOptions).app)
        ResponseWriter.fresh garbledRequest).outcome = Outcome.returned ∧
    (BidRequestHandler sampleEnv (withConsumers (NewRtbApp Nat Nat verboseOptions).app)
        ResponseWriter.fresh garbledRequest).w.calls = [204] ∧
    (chanSent (BidRequestHandler sampleEnv (withConsumers (NewRtbApp Nat Nat verboseOptions).app)
        ResponseWriter.fresh garbledRequest).app.bidLoggerChannel).map (fun i => i.BidRequest)
      = [0] := by
  decide

/-- C3: for a decoded request the handler writes exactly one status.  It is 200,
with the serialised response as the body, exactly when the bidder returned no
error and a response and the response serialised; otherwise it is 204 and the
body stays empty. -/
theorem C3_status_200_iff_served {Req Budgets : Type} (env : Env Req Budgets)
    (app : RtbApp Req Budgets) (r : HttpRequest) (q : Req)
    (h : bidRequestForHttpRequest env r = Except.ok q) :
    (∀ b js, Served env q b js →
      (BidRequestHandler env app ResponseWriter.fresh r).w.calls = [StatusOK] ∧
      (BidRequestHandler env app ResponseWriter.fresh r).w.status = some StatusOK ∧
      (BidRequestHandler env app ResponseWriter.fresh r).w.body = js) ∧
    ((¬ ∃ b js, Served env q b js) →
      (BidRequestHandler env app ResponseWriter.fresh r).w.calls = [StatusNoContent] ∧
      (BidRequestHandler env app ResponseWriter.fresh r).w.status = some StatusNoContent ∧
      (BidRequestHandler env app ResponseWriter.fresh r).w.body = "") ∧
    ((BidRequestHandler env app ResponseWriter.fresh r).w.status = some StatusOK ↔
      ∃ b js, Served env q b js) := by
  rw [BidRequestHandler_decoded env app _ r q h]
  have hA : ∀ b js, Served env q b js →
      (handleBidRequest env app ResponseWriter.fresh q).w.calls = [StatusOK] ∧
      (handleBidRequest env app ResponseWriter.fresh q).w.status = some StatusOK ∧
      (handleBidRequest env app ResponseWriter.fresh q).w.body = js := by
    intro b js hs
    rw [handle_served_w env app _ q b js hs]
    exact ⟨rfl, rfl, String.empty_append js⟩
  have hB : (¬ ∃ b js, Served env q b js) →
      (handleBidRequest env app ResponseWriter.fresh q).w.calls = [StatusNoContent] ∧
      (handleBidRequest env app ResponseWriter.fresh q).w.status = some StatusNoContent ∧
      (handleBidRequest env app ResponseWriter.fresh q).w.body = "" := by
    intro hn
    rw [handle_not_served_w env app _ q hn]
    exact ⟨rfl, rfl, rfl⟩
  refine ⟨hA, hB, ?_⟩
  constructor
  · intro hst
    by_contra hn
    rw [(hB hn).2.1] at hst
    exact absurd hst (by decide)
  · rintro ⟨b, js, hs⟩
    exact (hA b js hs).2.1

/-- C3 at a concrete input: a request the sample bidder bids on. -/
theorem C3_status_witness :
    bidRequestForHttpRequest sampleEnv goodRequest = Except.ok 1 ∧
    ((BidRequestHandler sampleEnv (NewRtbApp Nat Nat quietOptions).app ResponseWriter.fresh
        goodRequest).w.status = some StatusOK ↔
      ∃ b js, Served sampleEnv 1 b js) :=
  ⟨rfl, (C3_status_200_iff_served sampleEnv (NewRtbApp Nat Nat quietOptions).app goodRequest 1
    rfl).2.2⟩

theorem served_header_not_committed {Req Budgets : Type} (env : Env Req Budgets)
    (app : RtbApp Req Budgets) (r : HttpRequest) (q : Req) (b : BidResponse) (js : String)
    (h : bidRequestForHttpRequest env r = Except.ok q) (hs : Served env q b js) :
    (BidRequestHandler env app ResponseWriter.fresh r).w.status = some StatusOK ∧
    (BidRequestHandler env app ResponseWriter.fresh r).w.sentHeader = [] ∧
    (BidRequestHandler env app ResponseWriter.fresh r).w.header
      = [("Content-Type", "application/json")] := by
  rw [BidRequestHandler_decoded env app _ r q h, handle_served_w env app _ q b js hs]
  exact ⟨rfl, rfl, rfl⟩

/-- C4 on the code: for a request the bidder bids on and whose response
serialises, the handler commits status 200 with an empty header; the
`Content-Type` entry is set afterwards, in the live map only, and is not part of
what was committed. -/
theorem C4_content_type_set_after_commit :
    (BidRequestHandler sampleEnv (withConsumers (NewRtbApp Nat Nat verboseOptions).app)
        ResponseWriter.fresh goodRequest).outcome = Outcome.returned ∧
    (BidRequestHandler sampleEnv (withConsumers (NewRtbApp Nat Nat verboseOptions).app)
        ResponseWriter.fresh goodRequest).w.status = some 200 ∧
    (BidRequestHandler sampleEnv (withConsumers (NewRtbApp Nat Nat verboseOptions).app)
        ResponseWriter.fresh goodRequest).w.sentHeader = [] ∧
    (BidRequestHandler sampleEnv (withConsumers (NewRtbApp Nat Nat verboseOptions).app)
        ResponseWriter.fresh goodRequest).w.header = [("Content-Type", "application/json")] := by
  decide

theorem logStep_on {Req Budgets : Type} (env : Env Req Budgets)
    (app : RtbApp Req Budgets) (w : ResponseWriter) (q : Req) (b : Option BidResponse)
    (rem : Budgets) (t : Int) (lg : BidLogProducer) (cl : Chan (BidLogItem Req Budgets))
    (h : app.logger = some lg) (hc : app.bidLoggerChannel = some cl) :
    chanSent (logStep env app w q b rem t).app.bidLoggerChannel
      = chanSent app.bidLoggerChannel ++
        [{ Domain := app.domain, BidRequest := q, BidResponse := b,
           RemainingDailyBudgetsInMicroCents := rem, StartTimestampInNanoseconds := t,
           EndTimestampInNanoseconds := env.now 2 }] ∧
    (logStep env app w q b rem t).outcome
      = (if chanReady app.bidLoggerChannel then Outcome.returned
          else Outcome.blockedOnBidLoggerChannel) := by
  unfold logStep
  simp only [h, hc]
  exact ⟨chanSend_sent cl _, by rw [← chanSend_ready]⟩

/-- C5, as the code has it: for a request whose body was read, the request
logged is the value the decoder left behind.  With a logger set (and its channel
made), if the blocking stats send of line 94, when the bidder's response was
serialised, completes, exactly one item is sent on the log queue: its domain is
the application's, its request the decoded one, its response and budgets what
the bidder returned, so it holds no response when the bidder declined.  If that
stats send does not complete, the handler stays parked on it and the log queue
is left as it is.  With no logger set the log queue is left as it is. -/
theorem C5_one_log_item_per_request {Req Budgets : Type} (env : Env Req Budgets)
    (app : RtbApp Req Budgets) (w : ResponseWriter) (r : HttpRequest) (q : Req)
    (h : bidRequestForHttpRequest env r = Except.ok q) :
    (∀ lg cl, app.logger = some lg → app.bidLoggerChannel = some cl →
      ((∃ b js, Served env q b js) → chanReady app.accountBids = true) →
      chanSent (BidRequestHandler env app w r).app.bidLoggerChannel
        = chanSent app.bidLoggerChannel ++ [logItemFor env app q] ∧
      (BidRequestHandler env app w r).outcome
        = (if chanReady app.bidLoggerChannel then Outcome.returned
            else Outcome.blockedOnBidLoggerChannel)) ∧
    ((logItemFor env app q).Domain = app.domain ∧
      (logItemFor env app q).BidRequest = q ∧
      (logItemFor env app q).BidResponse = (env.Bid q (env.now 1)).1 ∧
      (logItemFor env app q).RemainingDailyBudgetsInMicroCents = (env.Bid q (env.now 1)).2.1) ∧
    (app.logger = none →
      (BidRequestHandler env app w r).app.bidLoggerChannel = app.bidLoggerChannel) ∧
    (∀ body, ReadAll r.Body = (body, none) → q = (env.Unmarshal body).1) ∧
    (∀ b js, Served env q b js → chanReady app.accountBids = false →
      (BidRequestHandler env app w r).outcome = Outcome.blockedOnAccountBids ∧
      (BidRequestHandler env app w r).app.bidLoggerChannel = app.bidLoggerChannel) := by
  have hq : ∀ body, ReadAll r.Body = (body, none) → q = (env.Unmarshal body).1 := by
    intro body hb
    unfold bidRequestForHttpRequest at h
    rw [hb] at h
    simp only at h
    cases h
    rfl
  rw [BidRequestHandler_decoded env app w r q h]
  refine ⟨?_, ⟨rfl, rfl, rfl, rfl⟩, ?_, hq, ?_⟩
  · intro lg cl hl hc hready
    by_cases hs : ∃ b js, Served env q b js
    · obtain ⟨b, js, hbj⟩ := hs
      rw [handle_served env app w q b js hbj, chanSend_ready, hready ⟨b, js, hbj⟩]
      simp only [if_true]
      have := logStep_on env { app with accountBids := (chanSend app.accountBids b).1 }
        (((w.WriteHeader StatusOK).HeaderSet "Content-Type" "application/json").Write js)
        q (some b) (env.Bid q (env.now 1)).2.1 (env.now 0) lg cl hl hc
      have hitem : logItemFor env app q
          = { Domain := app.domain, BidRequest := q, BidResponse := some b,
              RemainingDailyBudgetsInMicroCents := (env.Bid q (env.now 1)).2.1,
              StartTimestampInNanoseconds := env.now 0,
              EndTimestampInNanoseconds := env.now 2 } := by
        unfold logItemFor
        rw [hbj.1]
      rw [hitem]
      exact this
    · rw [handle_not_served env app w q hs]
      exact logStep_on env app _ q _ _ _ lg cl hl hc
  · intro hl
    by_cases hs : ∃ b js, Served env q b js
    · obtain ⟨b, js, hbj⟩ := hs
      rw [handle_served env app w q b js hbj]
      split_ifs
      · rw [logStep_off env { app with accountBids := (chanSend app.accountBids b).1 }
          _ _ _ _ _ hl]
      · rfl
    · rw [handle_not_served env app w q hs, logStep_off env app _ _ _ _ _ hl]
  · intro b js hbj hnr
    rw [handle_served env app w q b js hbj, chanSend_ready, hnr]
    exact ⟨rfl, rfl⟩

/-- C5 at concrete inputs, on the application `NewRtbApp` returns with logging
and periodic updates on: a request the sample bidder bids on, whose stats send
completes, and a request it declines. -/
theorem C5_one_log_item_witness :
    bidRequestForHttpRequest sampleEnv goodRequest = Except.ok 1 ∧
    Served sampleEnv 1 (responseOf ["100101"]) "{}" ∧
    chanReady (NewRtbApp Nat Nat verboseOptions).app.accountBids = true ∧
    chanSent (BidRequestHandler sampleEnv (NewRtbApp Nat Nat verboseOptions).app
        ResponseWriter.fresh goodRequest).app.bidLoggerChannel
      = chanSent (NewRtbApp Nat Nat verboseOptions).app.bidLoggerChannel ++
        [logItemFor sampleEnv (NewRtbApp Nat Nat verboseOptions).app 1] ∧
    (logItemFor sampleEnv (NewRtbApp Nat Nat verboseOptions).app 1).BidResponse
      = some (responseOf ["100101"]) ∧
    bidRequestForHttpRequest sampleEnv garbledRequest = Except.ok 0 ∧
    chanSent (BidRequestHandler sampleEnv (NewRtbApp Nat Nat verboseOptions).app
        ResponseWriter.fresh garbledRequest).app.bidLoggerChannel
      = chanSent (NewRtbApp Nat Nat verboseOptions).app.bidLoggerChannel ++
        [logItemFor sampleEnv (NewRtbApp Nat Nat verboseOptions).app 0] ∧
    (logItemFor sampleEnv (NewRtbApp Nat Nat verboseOptions).app 0).BidResponse = none :=
  ⟨rfl, ⟨rfl, rfl, rfl⟩, rfl,
    ((C5_one_log_item_per_request sampleEnv (NewRtbApp Nat Nat verboseOptions).app
      ResponseWriter.fresh goodRequest 1 rfl).1 _ _ rfl rfl (fun _ => rfl)).1,
    rfl, rfl,
    ((C5_one_log_item_per_request sampleEnv (NewRtbApp Nat Nat verboseOptions).app
      ResponseWriter.fresh garbledRequest 0 rfl).1 _ _ rfl rfl (fun _ => rfl)).1,
    rfl⟩

/-- C5 as stated fails: with each request logged and the periodic updates off
(`-logverbose -periodicupdates=false`), `NewRtbApp` returns an application with
a logger whose consumer waits and with no consumer of the stats queue; on a
request the bidder bids on the handler writes 200 and stays parked on the stats
send of line 94, and no item is sent on the log queue. -/
theorem C5_bid_without_stats_consumer_is_not_logged :
    (NewRtbApp Nat Nat logOnlyOptions).panicked = none ∧
    (NewRtbApp Nat Nat logOnlyOptions).app.logger = some (BidLogProducer.file "stdout" false) ∧
    chanReady (NewRtbApp Nat Nat logOnlyOptions).app.bidLoggerChannel = true ∧
    (BidRequestHandler sampleEnv (NewRtbApp Nat Nat logOnlyOptions).app
        ResponseWriter.fresh goodRequest).w.status = some 200 ∧
    (BidRequestHandler sampleEnv (NewRtbApp Nat Nat logOnlyOptions).app
        ResponseWriter.fresh goodRequest).outcome = Outcome.blockedOnAccountBids ∧
    (chanSent (BidRequestHandler sampleEnv (NewRtbApp Nat Nat logOnlyOptions).app
        ResponseWriter.fresh goodRequest).app.bidLoggerChannel).length = 0 := by
  decide

/-- C6, as the code has it: for a decoded request (the stats channel being
made), the handler executes exactly one send of the bidder's response on the
stats queue when the bidder returned no error and a response and the response
serialised; in every other case, a response that fails to serialise included,
it leaves the stats queue as it is. -/
theorem C6_stats_send_iff_served {Req Budgets : Type} (env : Env Req Budgets)
    (app : RtbApp Req Budgets) (w : ResponseWriter) (r : HttpRequest) (q : Req)
    (ca : Chan BidResponse) (h : bidRequestForHttpRequest env r = Except.ok q)
    (hc : app.accountBids = some ca) :
    (∀ b js, Served env q b js →
      chanSent (BidRequestHandler env app w r).app.accountBids
        = chanSent app.accountBids ++ [b]) ∧
    ((¬ ∃ b js, Served env q b js) →
      (BidRequestHandler env app w r).app.accountBids = app.accountBids) := by
  rw [BidRequestHandler_decoded env app w r q h]
  constructor
  · intro b js hs
    rw [handle_served env app w q b js hs]
    split_ifs
    · rw [logStep_accountBids, hc]
      exact chanSend_sent ca b
    · simp only [hc]
      exact chanSend_sent ca b
  · intro hn
    rw [handle_not_served env app w q hn, logStep_accountBids]

/-- C6 at a concrete input: a request the sample bidder bids on. -/
theorem C6_stats_send_witness :
    bidRequestForHttpRequest sampleEnv goodRequest = Except.ok 1 ∧
    (NewRtbApp Nat Nat quietOptions).app.accountBids = some (Chan.make 0) ∧
    Served sampleEnv 1 (responseOf ["100101"]) "{}" ∧
    chanSent (BidRequestHandler sampleEnv (NewRtbApp Nat Nat quietOptions).app
        ResponseWriter.fresh goodRequest).app.accountBids
      = chanSent (NewRtbApp Nat Nat quietOptions).app.accountBids ++ [responseOf ["100101"]] :=
  ⟨rfl, rfl, ⟨rfl, rfl, rfl⟩,
    (C6_stats_send_iff_served sampleEnv (NewRtbApp Nat Nat quietOptions).app
      ResponseWriter.fresh goodRequest 1 (Chan.make 0) rfl rfl).1 _ _ ⟨rfl, rfl, rfl⟩⟩

/-- C6 as stated fails: the bidder produces a response, its serialisation
fails, and the handler returns with status 204 and nothing sent on the stats
queue. -/
theorem C6_unserialisable_response_not_counted :
    (failingMarshalEnv.Bid 1 (failingMarshalEnv.now 1)).1 = some (responseOf ["100101"]) ∧
    (failingMarshalEnv.Bid 1 (failingMarshalEnv.now 1)).2.2 = none ∧
    (BidRequestHandler failingMarshalEnv (withConsumers (NewRtbApp Nat Nat verboseOptions).app)
        ResponseWriter.fresh goodRequest).outcome = Outcome.returned ∧
    (BidRequestHandler failingMarshalEnv (withConsumers (NewRtbApp Nat Nat verboseOptions).app)
        ResponseWriter.fresh goodRequest).w.calls = [204] ∧
    chanSent (BidRequestHandler failingMarshalEnv
        (withConsumers (NewRtbApp Nat Nat verboseOptions).app)
        ResponseWriter.fresh goodRequest).app.accountBids = [] := by
  decide

/-! ## Start-up -/

theorem finishStartup_spawned {Req Budgets : Type} (s : Startup Req Budgets) :
    (finishStartup s).spawned = s.spawned := by
  unfold finishStartup
  cases s.panicked <;> rfl

theorem finishStartup_panicked {Req Budgets : Type} (s : Startup Req Budgets) :
    (finishStartup s).panicked = s.panicked := by
  unfold finishStartup
  cases h : s.panicked with
  | none => simp [h]
  | some e => simp [h]

theorem parkReceiver_cap {α : Type} (ch : Option (Chan α)) :
    (parkReceiver ch).map (fun c => c.cap) = ch.map (fun c => c.cap) := by
  cases ch <;> rfl

theorem parkSpawned_facts {Req Budgets : Type} (spawned : List (Spawn Req Budgets))
    (app : RtbApp Req Budgets) :
    (parkSpawned spawned app).logger = app.logger ∧
    (parkSpawned spawned app).bidTotals = app.bidTotals ∧
    (parkSpawned spawned app).accountBids.map (fun c => c.cap)
      = app.accountBids.map (fun c => c.cap) ∧
    (parkSpawned spawned app).bidLoggerChannel.map (fun c => c.cap)
      = app.bidLoggerChannel.map (fun c => c.cap) := by
  unfold parkSpawned
  induction spawned generalizing app with
  | nil => exact ⟨rfl, rfl, rfl, rfl⟩
  | cons sp rest ih =>
    rw [List.foldl_cons]
    obtain ⟨h1, h2, h3, h4⟩ := ih (sp.task.park app)
    rw [h1, h2, h3, h4]
    cases sp.task with
    | LogBids => exact ⟨rfl, rfl, rfl, parkReceiver_cap _⟩
    | BidTotalUpdater => exact ⟨rfl, rfl, parkReceiver_cap _, rfl⟩
    | PrintUpdates => exact ⟨rfl, rfl, rfl, rfl⟩

theorem finishStartup_facts {Req Budgets : Type} (s : Startup Req Budgets)
    (h : s.panicked = none) :
    (finishStartup s).app.logger = s.app.logger ∧
    (finishStartup s).app.bidTotals = some BidTotals.empty ∧
    (finishStartup s).app.accountBids.map (fun c => c.cap) = some 0 ∧
    (finishStartup s).app.bidLoggerChannel.map (fun c => c.cap)
      = s.app.bidLoggerChannel.map (fun c => c.cap) := by
  unfold finishStartup
  simp only [h]
  obtain ⟨h1, h2, h3, h4⟩ := parkSpawned_facts s.spawned
    { s.app with accountBids := some (Chan.make 0), bidTotals := some BidTotals.empty }
  exact ⟨h1, h2, h3, h4⟩

theorem beforeFinish_logging (Req Budgets : Type) (options : RtbAppOptions) :
    ((startPeriodicUpdates options (startDataAccess options (startLogging options
        { app := { RtbApp.zero Req Budgets with
                   domain := options.Domain,
                   redisAddress := options.DataAccessOptions.Address,
                   redisNetwork := options.DataAccessOptions.Network },
          spawned := [], panicked := none }))).app.logger = none ∧
      (startPeriodicUpdates options (startDataAccess options (startLogging options
        { app := { RtbApp.zero Req Budgets with
                   domain := options.Domain,
                   redisAddress := options.DataAccessOptions.Address,
                   redisNetwork := options.DataAccessOptions.Network },
          spawned := [], panicked := none }))).app.bidLoggerChannel = none) ∨
    ((startPeriodicUpdates options (startDataAccess options (startLogging options
        { app := { RtbApp.zero Req Budgets with
                   domain := options.Domain,
                   redisAddress := options.DataAccessOptions.Address,
                   redisNetwork := options.DataAccessOptions.Network },
          spawned := [], panicked := none }))).app.logger ≠ none ∧
      (startPeriodicUpdates options (startDataAccess options (startLogging options
        { app := { RtbApp.zero Req Budgets with
                   domain := options.Domain,
                   redisAddress := options.DataAccessOptions.Address,
                   redisNetwork := options.DataAccessOptions.Network },
          spawned := [], panicked := none }))).app.bidLoggerChannel
        = some (Chan.make 0)) := by
  by_cases hv : options.LoggingOptions.Verbose = true ∨ options.LoggingOptions.FullBidResponse = true
  · right
    simp only [startLogging, hv, if_true, startDataAccess, startPeriodicUpdates,
      CreateDefaultCampaigns]
    constructor
    · split_ifs <;> simp
    · split_ifs <;> rfl
  · left
    simp only [startLogging, hv, if_false, startDataAccess, startPeriodicUpdates,
      CreateDefaultCampaigns]
    constructor
    · split_ifs <;> rfl
    · split_ifs <;> rfl

theorem NewRtbApp_channels (Req Budgets : Type) (options : RtbAppOptions)
    (h : (NewRtbApp Req Budgets options).panicked = none) :
    (NewRtbApp Req Budgets options).app.bidTotals = some BidTotals.empty ∧
    (NewRtbApp Req Budgets options).app.accountBids.map (fun c => c.cap) = some 0 ∧
    (((NewRtbApp Req Budgets options).app.logger = none ∧
        (NewRtbApp Req Budgets options).app.bidLoggerChannel.map (fun c => c.cap) = none) ∨
      ((NewRtbApp Req Budgets options).app.logger ≠ none ∧
        (NewRtbApp Req Budgets options).app.bidLoggerChannel.map (fun c => c.cap) = some 0)) := by
  unfold NewRtbApp at h ⊢
  simp only at h ⊢
  rw [finishStartup_panicked] at h
  obtain ⟨h1, h2, h3, h4⟩ := finishStartup_facts _ h
  refine ⟨h2, h3, ?_⟩
  rw [h1, h4]
  rcases beforeFinish_logging Req Budgets options with hh | hh
  · left
    exact ⟨hh.1, by rw [hh.2]; rfl⟩
  · right
    exact ⟨hh.1, by rw [hh.2]; rfl⟩

theorem spawned_tasks (Req Budgets : Type) (options : RtbAppOptions) :
    (NewRtbApp Req Budgets options).spawned.map (fun s => s.task)
      = (if options.LoggingOptions.Verbose = true ∨ options.LoggingOptions.FullBidResponse = true
          then [Task.LogBids] else []) ++
        (if options.PeriodicUpdates = true ∧ 0 < secondsDuration options.UpdateFrequencyInSeconds
          then [Task.BidTotalUpdater, Task.PrintUpdates] else []) := by
  unfold NewRtbApp
  simp only [finishStartup_spawned]
  by_cases hv : options.LoggingOptions.Verbose = true ∨ options.LoggingOptions.FullBidResponse = true
    <;> by_cases hp : options.PeriodicUpdates = true
    <;> by_cases hd : secondsDuration options.UpdateFrequencyInSeconds ≤ 0
    <;> simp [startLogging, startDataAccess, startPeriodicUpdates, hv, hp, hd]
    <;> rw [if_pos (by omega)]

theorem NewRtbApp_panics_iff (Req Budgets : Type) (options : RtbAppOptions) :
    (NewRtbApp Req Budgets options).panicked ≠ none ↔
      options.PeriodicUpdates = true ∧ secondsDuration options.UpdateFrequencyInSeconds ≤ 0 := by
  unfold NewRtbApp
  simp only [finishStartup_panicked]
  by_cases hv : options.LoggingOptions.Verbose = true ∨ options.LoggingOptions.FullBidResponse = true
    <;> by_cases hp : options.PeriodicUpdates = true
    <;> by_cases hd : secondsDuration options.UpdateFrequencyInSeconds ≤ 0
    <;> simp [startLogging, startDataAccess, startPeriodicUpdates, hv, hp, hd]

/-- The task `BidTotalUpdater` is started exactly when `PeriodicUpdates` is set
and the ticker could be made. -/
theorem updater_started_iff (Req Budgets : Type) (options : RtbAppOptions) :
    Task.BidTotalUpdater ∈ (NewRtbApp Req Budgets options).spawned.map (fun s => s.task) ↔
      options.PeriodicUpdates = true ∧ 0 < secondsDuration options.UpdateFrequencyInSeconds := by
  rw [spawned_tasks]
  by_cases hv : options.LoggingOptions.Verbose = true ∨ options.LoggingOptions.FullBidResponse = true
    <;> by_cases hp : options.PeriodicUpdates = true ∧
          0 < secondsDuration options.UpdateFrequencyInSeconds
    <;> simp [hv, hp]

/-- The `go` statement of `BidTotalUpdater` comes before the channel and the map
are made: at that statement both fields are still nil. -/
theorem updater_started_before_channel_made (Req Budgets : Type) (options : RtbAppOptions)
    (s : Spawn Req Budgets) (hs : s ∈ (NewRtbApp Req Budgets options).spawned)
    (ht : s.task = Task.BidTotalUpdater) :
    s.seen.accountBids = none ∧ s.seen.bidTotals.isNone = true := by
  unfold NewRtbApp at hs
  simp only [finishStartup_spawned] at hs
  by_cases hv : options.LoggingOptions.Verbose = true ∨ options.LoggingOptions.FullBidResponse = true
    <;> by_cases hp : options.PeriodicUpdates = true
    <;> by_cases hd : secondsDuration options.UpdateFrequencyInSeconds ≤ 0
    <;> simp only [startLogging, startDataAccess, startPeriodicUpdates, hv, hp, hd,
      if_true, if_false, Bool.false_eq_true, List.nil_append, List.mem_append, List.mem_cons,
      List.mem_singleton, List.not_mem_nil, or_false, false_or] at hs
  · subst hs
    exact absurd ht (by simp)
  · rcases hs with hs | hs | hs <;> subst hs
    · exact absurd ht (by simp)
    · by_cases hu : options.PacerOptions.UsePacer = true <;>
        simp [hu, CreateDefaultCampaigns, RtbApp.zero]
    · exact absurd ht (by simp)
  · subst hs
    exact absurd ht (by simp)
  · subst hs
    exact absurd ht (by simp)
  · rcases hs with hs | hs <;> subst hs
    · by_cases hu : options.PacerOptions.UsePacer = true <;>
        simp [hu, CreateDefaultCampaigns, RtbApp.zero]
    · exact absurd ht (by simp)

/-! ## The claims on the hand-off and on start-up -/

theorem logStep_returned_iff {Req Budgets : Type} (env : Env Req Budgets)
    (app : RtbApp Req Budgets) (w : ResponseWriter) (q : Req) (b : Option BidResponse)
    (rem : Budgets) (t : Int) :
    (logStep env app w q b rem t).outcome = Outcome.returned ↔
      (app.logger ≠ none → chanReady app.bidLoggerChannel = true) := by
  unfold logStep
  cases hl : app.logger with
  | none => simp
  | some lg =>
    simp only [chanSend_ready]
    cases chanReady app.bidLoggerChannel <;> simp

theorem chanReady_unbuffered {α : Type} (c : Chan α) (h : c.cap = 0) :
    chanReady (some c) = true ↔ 0 < c.recvq := by
  simp [chanReady, h]

/-- C9, as the code has it: both queues are made unbuffered, and the handler
sends on them with plain blocking sends.  For a decoded request the handler
returns exactly when each send it executes completes at once, which on an
unbuffered channel means that a consumer is waiting in a receive; a stats send
that cannot complete leaves the handler parked on the stats queue holding the
response, which is kept and not dropped. -/
theorem C9_handler_returns_iff_sends_complete {Req Budgets : Type} (env : Env Req Budgets)
    (app : RtbApp Req Budgets) (w : ResponseWriter) (r : HttpRequest) (q : Req)
    (h : bidRequestForHttpRequest env r = Except.ok q) :
    ((BidRequestHandler env app w r).outcome = Outcome.returned ↔
      ((∃ b js, Served env q b js) → chanReady app.accountBids = true) ∧
      (app.logger ≠ none → chanReady app.bidLoggerChannel = true)) ∧
    (∀ (α : Type) (c : Chan α), c.cap = 0 → (chanReady (some c) = true ↔ 0 < c.recvq)) ∧
    (∀ options : RtbAppOptions, (NewRtbApp Req Budgets options).panicked = none →
      (NewRtbApp Req Budgets options).app.accountBids.map (fun c => c.cap) = some 0 ∧
      (((NewRtbApp Req Budgets options).app.logger = none ∧
          (NewRtbApp Req Budgets options).app.bidLoggerChannel.map (fun c => c.cap) = none) ∨
        ((NewRtbApp Req Budgets options).app.logger ≠ none ∧
          (NewRtbApp Req Budgets options).app.bidLoggerChannel.map (fun c => c.cap)
            = some 0))) ∧
    (∀ (ca : Chan BidResponse) (b : BidResponse) (js : String),
      app.accountBids = some ca → chanReady (some ca) = false → Served env q b js →
      (BidRequestHandler env app w r).outcome = Outcome.blockedOnAccountBids ∧
      (BidRequestHandler env app w r).app.accountBids
        = some { ca with sendq := ca.sendq ++ [b], sent := ca.sent ++ [b] }) := by
  rw [BidRequestHandler_decoded env app w r q h]
  refine ⟨?_, fun α c hc => chanReady_unbuffered c hc, ?_, ?_⟩
  · by_cases hs : ∃ b js, Served env q b js
    · obtain ⟨b, js, hbj⟩ := hs
      rw [handle_served env app w q b js hbj, chanSend_ready]
      cases hr : chanReady app.accountBids with
      | true =>
        simp only [if_true]
        rw [logStep_returned_iff]
        constructor
        · intro hlog
          exact ⟨fun _ => by trivial, hlog⟩
        · intro hh
          exact hh.2
      | false =>
        simp only [Bool.false_eq_true, if_false]
        constructor
        · intro hh
          cases hh
        · intro hh
          exact absurd (hh.1 ⟨b, js, hbj⟩) (by simp)
    · rw [handle_not_served env app w q hs, logStep_returned_iff]
      constructor
      · intro hlog
        exact ⟨fun hx => absurd hx hs, hlog⟩
      · intro hh
        exact hh.2
  · intro options hp
    exact (NewRtbApp_channels Req Budgets options hp).2
  · intro ca b js hca hnr hbj
    rw [handle_served env app w q b js hbj, chanSend_ready, hca, hnr]
    simp only [Bool.false_eq_true, if_false]
    refine ⟨trivial, ?_⟩
    have h1 : ¬ 0 < ca.recvq := by
      intro hp
      simp [chanReady, hp] at hnr
    have h2 : ¬ ca.buf.length < ca.cap := by
      intro hp
      simp [chanReady, hp] at hnr
    simp [chanSend, Chan.send, h1, h2]

/-- C9 at a concrete input: a request the sample bidder bids on, with consumers
waiting on both queues. -/
theorem C9_handler_returns_witness :
    bidRequestForHttpRequest sampleEnv goodRequest = Except.ok 1 ∧
    ((BidRequestHandler sampleEnv (withConsumers (NewRtbApp Nat Nat verboseOptions).app)
        ResponseWriter.fresh goodRequest).outcome = Outcome.returned ↔
      ((∃ b js, Served sampleEnv 1 b js) →
        chanReady (withConsumers (NewRtbApp Nat Nat verboseOptions).app).accountBids = true) ∧
      ((withConsumers (NewRtbApp Nat Nat verboseOptions).app).logger ≠ none →
        chanReady (withConsumers (NewRtbApp Nat Nat verboseOptions).app).bidLoggerChannel
          = true)) :=
  ⟨rfl, (C9_handler_returns_iff_sends_complete sampleEnv
    (withConsumers (NewRtbApp Nat Nat verboseOptions).app) ResponseWriter.fresh goodRequest 1
    rfl).1⟩

/-- C9 as stated fails: on the application `NewRtbApp` returns with the periodic
updates off, where no consumer of the stats queue was started, a request the
bidder bids on leaves the handler parked on the stats queue, the response held
by the parked sender and nothing dropped. -/
theorem C9_handler_blocks_without_consumer :
    (BidRequestHandler sampleEnv (NewRtbApp Nat Nat quietOptions).app
        ResponseWriter.fresh goodRequest).outcome = Outcome.blockedOnAccountBids ∧
    ((BidRequestHandler sampleEnv (NewRtbApp Nat Nat quietOptions).app
        ResponseWriter.fresh goodRequest).app.accountBids.map fun c => (c.cap, c.buf, c.sendq))
      = some (0, [], [responseOf ["100101"]]) := by
  decide

/-- With logging and the periodic updates on, both consumers wait on their
queues and the handler returns, for a request the sample bidder bids on and
for one it declines. -/
theorem handler_returns_with_both_tasks :
    (NewRtbApp Nat Nat verboseOptions).panicked = none ∧
    (NewRtbApp Nat Nat verboseOptions).spawned.map (fun s => s.task)
      = [Task.LogBids, Task.BidTotalUpdater, Task.PrintUpdates] ∧
    (BidRequestHandler sampleEnv (NewRtbApp Nat Nat verboseOptions).app
        ResponseWriter.fresh goodRequest).outcome = Outcome.returned ∧
    (BidRequestHandler sampleEnv (NewRtbApp Nat Nat verboseOptions).app
        ResponseWriter.fresh garbledRequest).outcome = Outcome.returned := by
  decide

/-- C10 on the code: with `PeriodicUpdates` off (`-periodicupdates=false`)
`NewRtbApp` returns without having started `BidTotalUpdater` or any other task;
the stats channel it made has no consumer, and a request the bidder bids on
leaves the handler parked for ever on the send of line 94, after the 200 was
written. -/
theorem C10_no_updater_without_periodic_updates :
    quietOptions.PeriodicUpdates = false ∧
    (NewRtbApp Nat Nat quietOptions).panicked = none ∧
    (NewRtbApp Nat Nat quietOptions).spawned.map (fun s => s.task) = [] ∧
    chanReady (NewRtbApp Nat Nat quietOptions).app.accountBids = false ∧
    (BidRequestHandler sampleEnv (NewRtbApp Nat Nat quietOptions).app
        ResponseWriter.fresh goodRequest).w.status = some 200 ∧
    (BidRequestHandler sampleEnv (NewRtbApp Nat Nat quietOptions).app
        ResponseWriter.fresh goodRequest).outcome = Outcome.blockedOnAccountBids := by
  decide

end RtbHost
